import Mathlib

/-!
Verification of the concurrency core of the SignalsAndSlots repository: the
shutdown-aware blocking queue `SafeQueueVariant<T>`
(src/inc/BSignals/details/SafeQueueVariant.hpp) and the round-robin worker pool
`WheeledThreadPool` (src/inc/BSignals/details/WheeledThreadPool.h).

Shallow embedding conventions:
* The queue's mutable state (`shutdownObject`, `terminateFlag`, `q`) is a
  structure; each member function becomes a Lean function from the state to
  the result and the updated state.  The backing `std::queue` is a `List`
  whose head is the queue's front.
* Condition-variable waits are modelled by explicit parameters: a blocking
  `c.wait(lock)` releases the lock, so on each wakeup the function observes a
  possibly different state.  `dequeue` therefore takes a list of states, one
  per wakeup, in order; an exhausted list means the thread is still blocked,
  encoded as `none`.  A timed `c.wait_for` is modelled by a Bool `woke`
  (`true` iff the wait reported `no_timeout`, which happens on a notify or on
  a spurious wakeup) together with the state observed when the wait returns.
* `q.front()` on an empty `std::queue` is undefined behavior; the embedding
  of `wait_for_dequeue` returns `none` exactly on that path.
-/

namespace BSignals.details

/-- State of one `SafeQueueVariant<T>`: the sentinel built at construction
(`shutdownObject`), the termination flag, and the FIFO contents (head of the
list = front of the queue). -/
structure SafeQueueVariant (T : Type) where
  shutdownObject : T
  terminateFlag : Bool
  q : List T
deriving DecidableEq, Repr

namespace SafeQueueVariant

variable {T : Type}

/-- Constructor: `SafeQueueVariant(Args&& ...args) : shutdownObject(args...),
terminateFlag (false), q() {}`. -/
def construct (sentinel : T) : SafeQueueVariant T :=
  { shutdownObject := sentinel, terminateFlag := false, q := [] }

/-- `enqueue(const T &t)`: `q.push(t); c.notify_one();` — appends at the tail. -/
def enqueue (s : SafeQueueVariant T) (t : T) : SafeQueueVariant T :=
  { s with q := s.q ++ [t] }

/-- Loop body of the blocking `dequeue`:
`while (q.empty()){ c.wait(lock); if (terminateFlag) return shutdownObject; }
T val = q.front(); q.pop(); return val;`.
Each element of `wakes` is the state observed after one `c.wait` returns;
`none` means every wakeup in the trace was consumed and the thread is still
blocked inside the loop. -/
def dequeueLoop : SafeQueueVariant T → List (SafeQueueVariant T) → Option (T × SafeQueueVariant T)
  | s, [] =>
    match s.q with
    | v :: rest => some (v, { s with q := rest })
    | [] => none
  | s, w :: ws =>
    match s.q with
    | v :: rest => some (v, { s with q := rest })
    | [] => if w.terminateFlag then some (w.shutdownObject, w) else dequeueLoop w ws

/-- `T dequeue(void)`: `if (terminateFlag) return shutdownObject;` then the
waiting loop of `dequeueLoop`.  The result pairs the returned value with the
queue state left behind. -/
def dequeue (s : SafeQueueVariant T) (wakes : List (SafeQueueVariant T)) :
    Option (T × SafeQueueVariant T) :=
  if s.terminateFlag then some (s.shutdownObject, s) else dequeueLoop s wakes

/-- `std::pair<T, bool> wait_for_dequeue(timeout)`:
`ret.second = false; if (terminateFlag) return ret;
bool success = (c.wait_for(lock, timeout) == std::cv_status::no_timeout);
if (!success) return ret;
ret.first = q.front(); q.pop(); ret.second = true; return ret;`.
`woke` is the `no_timeout` outcome of the single `c.wait_for`; `s'` is the
state observed when that wait returns (the wait released the lock).  The
`none` result is the `q.front()`-on-empty-queue path, which is undefined
behavior in the C++ source. -/
def wait_for_dequeue [Inhabited T] (s : SafeQueueVariant T) (woke : Bool)
    (s' : SafeQueueVariant T) : Option ((T × Bool) × SafeQueueVariant T) :=
  if s.terminateFlag then some ((default, false), s)
  else if woke = false then some ((default, false), s')
  else
    match s'.q with
    | v :: rest => some ((v, true), { s' with q := rest })
    | [] => none

/-- `std::pair<T, bool> nonBlockingDequeue(void)`: `if (!q.empty()){ ret.first =
q.front(); q.pop(); ret.second = true; } else { ret.second = false; }` — note
that the C++ source never consults `terminateFlag` here. -/
def nonBlockingDequeue [Inhabited T] (s : SafeQueueVariant T) :
    (T × Bool) × SafeQueueVariant T :=
  match s.q with
  | v :: rest => ((v, true), { s with q := rest })
  | [] => ((default, false), s)

/-- `clear()`: `while (!q.empty()){ q.pop(); }` — drains the sequence, leaving
the flag untouched. -/
def clear (s : SafeQueueVariant T) : SafeQueueVariant T :=
  { s with q := [] }

/-- `wakeWaiters()`: `c.notify_all();` — no state change. -/
def wakeWaiters (s : SafeQueueVariant T) : SafeQueueVariant T :=
  s

/-- `wait()` and `bool wait(timeout)`: both only inspect the state and block on
the condition variable (the timed one additionally reports whether data became
available); neither mutates `q` or `terminateFlag`, so the state effect is the
identity. -/
def wait (s : SafeQueueVariant T) : SafeQueueVariant T :=
  s

/-- `stop()`: `terminateFlag = true; wakeWaiters(); ... c.notify_all();` —
the only state change is setting the flag. -/
def stop (s : SafeQueueVariant T) : SafeQueueVariant T :=
  wakeWaiters { s with terminateFlag := true }

/-- `~SafeQueueVariant(){ stop(); }` — the destructor's effect on the state. -/
def destruct (s : SafeQueueVariant T) : SafeQueueVariant T :=
  stop s

/-- `isStopped()`: `return terminateFlag;`. -/
def isStopped (s : SafeQueueVariant T) : Bool :=
  s.terminateFlag

/-- `size()`: `return q.size();`. -/
def size (s : SafeQueueVariant T) : Nat :=
  s.q.length

/-- `isEmpty()`: `return q.empty();`. -/
def isEmpty (s : SafeQueueVariant T) : Bool :=
  s.q.isEmpty

/-- Sequentially enqueue a list of items (repeated calls to `enqueue`). -/
def enqueueList (s : SafeQueueVariant T) (ts : List T) : SafeQueueVariant T :=
  ts.foldl enqueue s

/-- Perform `n` sequential blocking dequeues with no interference from other
threads (empty wakeup trace), collecting the returned values; stops early if a
dequeue would block forever. -/
def dequeueAll : Nat → SafeQueueVariant T → List T
  | 0, _ => []
  | n + 1, s =>
    match dequeue s [] with
    | some (v, s') => v :: dequeueAll n s'
    | none => []

end SafeQueueVariant

/-- Modelled from the spec: the class `Wheel` (`BSignals/details/Wheel.h`, the
spec's WorkDistributionRing) is not under `src/`; only its use in
`WheeledThreadPool.h` is.  Per the spec it "holds N queues (spokes) and yields
the next one, in strict cyclic order, on each request", "in a fixed cyclic
sequence starting at index 0", with the "spoke index advances by 1, mod N, per
call".  The state is the round-robin cursor together with the N spoke queues
(spoke `j`'s pending tasks, for `j < N`; indices `≥ N` are never used). -/
structure Wheel (τ : Type) (N : Nat) where
  cursor : Nat
  spokes : Nat → List τ

/-- Modelled from the spec: `getSpoke()` of the missing `Wheel.h` — yields the
index of the next spoke (cyclic, starting at 0) and advances the cursor by 1
mod N. -/
def Wheel.getSpoke {τ : Type} {N : Nat} (w : Wheel τ N) : Nat × Wheel τ N :=
  (w.cursor % N, { w with cursor := (w.cursor + 1) % N })

/-- A freshly constructed wheel: cursor at spoke 0, all spokes empty. -/
def Wheel.fresh (τ : Type) (N : Nat) : Wheel τ N :=
  { cursor := 0, spokes := fun _ => [] }

namespace WheeledThreadPool

/-- `static void run(const std::function<void()> &task){
threadPooledFunctions.getSpoke().enqueue(task); }` — asks the ring for the
next spoke and appends the task to that spoke's queue (the spokes' backing
MPMC queue `enqueue` appends at the tail). -/
def run {τ : Type} {N : Nat} (w : Wheel τ N) (task : τ) : Wheel τ N :=
  let p := w.getSpoke
  { p.2 with spokes := fun j => if j = p.1 then p.2.spokes j ++ [task] else p.2.spokes j }

/-- Submit a list of tasks sequentially from one thread (repeated `run`). -/
def runAll {τ : Type} {N : Nat} (w : Wheel τ N) (tasks : List τ) : Wheel τ N :=
  tasks.foldl run w

/-- Total number of copies of task `t` across the `N` spokes — the number of
times `t` will be executed, since each spoke is consumed exactly once, in
order, by its single bound worker. -/
def execCount {τ : Type} {N : Nat} [DecidableEq τ] (w : Wheel τ N) (t : τ) : Nat :=
  ∑ j ∈ Finset.range N, (w.spokes j).count t

/-- Among `m` consecutive ring requests of which the first observes cursor
value `c`, the number that select spoke `j` (each request selects spoke
`cursor mod N` and advances the cursor by one).  Used to state how many tasks
land on each spoke. -/
def rrCount (N j : Nat) : Nat → Nat → Nat
  | _, 0 => 0
  | c, m + 1 => (if j = c % N then 1 else 0) + rrCount N j (c + 1) m

/-- Modelled from the spec: the definition of `startup()` is not under `src/`
(`WheeledThreadPool.h` only declares it, together with `tpLock`, `isStarted`
and `nThreads`).  Per the spec, the pool holds "a 'started' flag guarded by a
lock" and "the thread-spawning phase executes at most once, even if `startup`
is invoked concurrently by multiple callers"; "only the very first caller that
successfully transitions `NotStarted → Starting` performs thread spawning; all
others return once `Running` is observed", and "`Starting → Running`:
completes once exactly N worker threads have been spawned".  The lifecycle
state tracks the started flag and how many worker threads have been spawned in
total. -/
structure Lifecycle where
  isStarted : Bool
  spawned : Nat
deriving DecidableEq, Repr

/-- Modelled from the spec: one call to `startup()` with pool size `nThreads`,
as serialized by the startup lock: if the started flag is already set the call
returns with no effect; otherwise the caller spawns the `nThreads` workers and
sets the flag. -/
def startup (nThreads : Nat) (p : Lifecycle) : Lifecycle :=
  if p.isStarted then p
  else { isStarted := true, spawned := p.spawned + nThreads }

/-- `T` concurrent `startup` callers, serialized by the startup lock into `T`
sequential calls. -/
def startupMany (nThreads : Nat) : Nat → Lifecycle → Lifecycle
  | 0, p => p
  | t + 1, p => startup nThreads (startupMany nThreads t p)

/-- The pool before any `startup` call: not started, no worker spawned. -/
def Lifecycle.fresh : Lifecycle :=
  { isStarted := false, spawned := 0 }

end WheeledThreadPool

namespace SafeQueueVariant

variable {T : Type}

theorem dequeue_stopped (s : SafeQueueVariant T) (wakes : List (SafeQueueVariant T))
    (h : s.terminateFlag = true) : dequeue s wakes = some (s.shutdownObject, s) := by
  simp [dequeue, h]

theorem wait_for_dequeue_stopped [Inhabited T] (s s' : SafeQueueVariant T) (woke : Bool)
    (h : s.terminateFlag = true) : wait_for_dequeue s woke s' = some ((default, false), s) := by
  simp [wait_for_dequeue, h]

theorem wait_for_dequeue_timeout [Inhabited T] (s s' : SafeQueueVariant T)
    (h : s.terminateFlag = false) : wait_for_dequeue s false s' = some ((default, false), s') := by
  simp [wait_for_dequeue, h]

theorem wait_for_dequeue_woke [Inhabited T] (s s' : SafeQueueVariant T) (v : T) (r : List T)
    (h : s.terminateFlag = false) (hq : s'.q = v :: r) :
    wait_for_dequeue s true s' = some ((v, true), { s' with q := r }) := by
  simp [wait_for_dequeue, h, hq]

theorem nonBlockingDequeue_cons [Inhabited T] (s : SafeQueueVariant T) (v : T) (r : List T)
    (hq : s.q = v :: r) : nonBlockingDequeue s = ((v, true), { s with q := r }) := by
  simp [nonBlockingDequeue, hq]

theorem dequeueLoop_cons_q (s : SafeQueueVariant T) (wakes : List (SafeQueueVariant T)) (v : T)
    (r : List T) (hq : s.q = v :: r) :
    dequeueLoop s wakes = some (v, { s with q := r }) := by
  cases wakes <;> simp [dequeueLoop, hq]

theorem dequeue_item (s : SafeQueueVariant T) (wakes : List (SafeQueueVariant T)) (v : T)
    (r : List T) (h : s.terminateFlag = false) (hq : s.q = v :: r) :
    dequeue s wakes = some (v, { s with q := r }) := by
  rw [dequeue, if_neg (by simp [h])]
  exact dequeueLoop_cons_q s wakes v r hq

theorem dequeueLoop_sound (v : T) (s'' : SafeQueueVariant T) :
    ∀ (wakes : List (SafeQueueVariant T)) (s : SafeQueueVariant T),
      dequeueLoop s wakes = some (v, s'') →
      (s''.terminateFlag = true ∧ v = s''.shutdownObject) ∨
      (∃ w r, (w = s ∨ w ∈ wakes) ∧ w.q = v :: r ∧ s'' = { w with q := r }) := by
  intro wakes
  induction wakes with
  | nil =>
    intro s h
    simp only [dequeueLoop] at h
    rcases hq : s.q with _ | ⟨x, rest⟩ <;> rw [hq] at h <;> dsimp only at h
    · exact absurd h (by simp)
    · simp only [Option.some.injEq, Prod.mk.injEq] at h
      exact Or.inr ⟨s, rest, Or.inl rfl, by rw [hq, h.1], h.2.symm⟩
  | cons w ws ih =>
    intro s h
    simp only [dequeueLoop] at h
    rcases hq : s.q with _ | ⟨x, rest⟩ <;> rw [hq] at h <;> dsimp only at h
    · by_cases hw : w.terminateFlag = true
      · rw [if_pos hw] at h
        simp only [Option.some.injEq, Prod.mk.injEq] at h
        refine Or.inl ⟨by rw [← h.2]; exact hw, ?_⟩
        rw [← h.2]
        exact h.1.symm
      · rw [if_neg hw] at h
        rcases ih w h with hl | ⟨w', r', hm, hq', hs⟩
        · exact Or.inl hl
        · exact Or.inr ⟨w', r', Or.inr (List.mem_cons.2 hm), hq', hs⟩
    · simp only [Option.some.injEq, Prod.mk.injEq] at h
      exact Or.inr ⟨s, rest, Or.inl rfl, by rw [hq, h.1], h.2.symm⟩

theorem dequeueLoop_blocked :
    ∀ (wakes : List (SafeQueueVariant T)) (s : SafeQueueVariant T), s.q = [] →
      (∀ w ∈ wakes, w.terminateFlag = false ∧ w.q = []) →
      dequeueLoop s wakes = none := by
  intro wakes
  induction wakes with
  | nil => intro s hq _; simp [dequeueLoop, hq]
  | cons w ws ih =>
    intro s hq hall
    have hw := hall w (List.mem_cons_self _ _)
    simp only [dequeueLoop, hq, hw.1, Bool.false_eq_true, if_false]
    exact ih w hw.2 fun x hx => hall x (List.mem_cons_of_mem _ hx)

theorem dequeue_stop_wake (s w : SafeQueueVariant T) (ws : List (SafeQueueVariant T))
    (hf : s.terminateFlag = false) (hq : s.q = []) (hw : w.terminateFlag = true) :
    dequeue s (w :: ws) = some (w.shutdownObject, w) := by
  simp [dequeue, dequeueLoop, hf, hq, hw]

theorem enqueueList_eq (ts : List T) :
    ∀ s : SafeQueueVariant T, enqueueList s ts = { s with q := s.q ++ ts } := by
  induction ts with
  | nil => intro s; simp [enqueueList]
  | cons t ts ih =>
    intro s
    show enqueueList (enqueue s t) ts = _
    rw [ih (enqueue s t)]
    simp [enqueue]

theorem dequeueAll_eq (L : List T) (sentinel : T) :
    dequeueAll L.length ⟨sentinel, false, L⟩ = L := by
  induction L with
  | nil => rfl
  | cons v rest ih =>
    show dequeueAll (rest.length + 1) ⟨sentinel, false, v :: rest⟩ = v :: rest
    rw [dequeueAll, dequeue_item ⟨sentinel, false, v :: rest⟩ [] v rest rfl rfl]
    exact congrArg (v :: ·) ih

/-- C1 counterexample: a queue built by constructing with sentinel 0, enqueueing
42 and calling `stop()` has its termination flag set and still holds 42; the
non-blocking dequeue then returns the previously queued item 42 with found flag
`true` — not the sentinel / "no value" result, refuting the claim for
`try_dequeue`. -/
theorem C1_counterexample_nonBlockingDequeue_after_stop :
    (stop (enqueue (construct (0 : Nat)) 42)).terminateFlag = true ∧
    nonBlockingDequeue (stop (enqueue (construct (0 : Nat)) 42)) = ((42, true), ⟨0, true, []⟩) ∧
    (42 : Nat) ≠ (construct (0 : Nat)).shutdownObject := by
  decide

/-- C1 (amended): once `stop()` has been called, the blocking `dequeue` returns
the sentinel and the timed `wait_for_dequeue` returns `(default, false)`, both
immediately and without removing any item; the non-blocking `nonBlockingDequeue`
however never consults the termination flag: whenever items remain in the
sequence it still returns the head item with found flag `true`. -/
theorem C1_post_stop_determinism_amended :
    (∀ (s : SafeQueueVariant Nat) (wakes : List (SafeQueueVariant Nat)),
        s.terminateFlag = true → dequeue s wakes = some (s.shutdownObject, s)) ∧
    (∀ (s s' : SafeQueueVariant Nat) (woke : Bool), s.terminateFlag = true →
        wait_for_dequeue s woke s' = some ((default, false), s)) ∧
    (∀ (s : SafeQueueVariant Nat) (v : Nat) (r : List Nat), s.q = v :: r →
        nonBlockingDequeue s = ((v, true), { s with q := r })) :=
  ⟨fun s wakes h => dequeue_stopped s wakes h,
   fun s s' woke h => wait_for_dequeue_stopped s s' woke h,
   fun s v r hq => nonBlockingDequeue_cons s v r hq⟩

/-- C1 witness: the amended statement applied to the stopped queue
`⟨7, true, [1, 2]⟩` and to a stopped queue still holding 5. -/
theorem C1_witness :
    dequeue (⟨7, true, [1, 2]⟩ : SafeQueueVariant Nat) [] = some (7, ⟨7, true, [1, 2]⟩) ∧
    wait_for_dequeue (⟨7, true, []⟩ : SafeQueueVariant Nat) true ⟨7, true, []⟩ =
      some ((0, false), ⟨7, true, []⟩) ∧
    nonBlockingDequeue (⟨7, true, [5]⟩ : SafeQueueVariant Nat) = ((5, true), ⟨7, true, []⟩) :=
  ⟨C1_post_stop_determinism_amended.1 ⟨7, true, [1, 2]⟩ [] rfl,
   C1_post_stop_determinism_amended.2.1 ⟨7, true, []⟩ ⟨7, true, []⟩ true rfl,
   C1_post_stop_determinism_amended.2.2 ⟨7, true, [5]⟩ 5 [] rfl⟩

/-- C2: the timed wait path of `wait_for_dequeue` does not re-validate the
predicate after a wakeup: on a wakeup reported as `no_timeout` while the queue
is still empty and unstopped (a spurious wakeup), the code proceeds straight to
`q.front()` / `q.pop()` on the empty queue — the embedding's
undefined-behavior result `none` — so the extraction of the head element of an
empty queue is reachable, contrary to the claim. -/
theorem C2_spurious_wakeup_reaches_empty_extraction :
    wait_for_dequeue (construct (0 : Nat)) true (construct (0 : Nat)) = none := by
  decide

/-- C3 counterexample: an unstopped queue already holding item 7 at the call
(and untouched during the wait); the single `c.wait_for` elapses without any
notification, so `wait_for_dequeue` returns `(default = 0, false)` even though
an item was available for the whole duration — refuting "returns the head item
paired with true whenever an item is or becomes available within the
duration". -/
theorem C3_counterexample_timeout_despite_item_available :
    (enqueue (construct (0 : Nat)) 7).terminateFlag = false ∧
    (enqueue (construct (0 : Nat)) 7).q = [7] ∧
    wait_for_dequeue (enqueue (construct (0 : Nat)) 7) false (enqueue (construct (0 : Nat)) 7) =
      some ((0, false), enqueue (construct (0 : Nat)) 7) := by
  decide

/-- C3 (amended): `wait_for_dequeue` returns `(default, false)` immediately if
the queue is already stopped; otherwise its outcome is decided solely by the
single condition-variable wait, not by item availability: if that wait times
out it returns `(default, false)` even when items are queued, and if it wakes
without timeout it extracts and returns the head item with `true` (well-defined
only when the queue is non-empty at that moment). -/
theorem C3_timed_dequeue_amended :
    (∀ (s s' : SafeQueueVariant Nat) (woke : Bool), s.terminateFlag = true →
        wait_for_dequeue s woke s' = some ((default, false), s)) ∧
    (∀ (s s' : SafeQueueVariant Nat), s.terminateFlag = false →
        wait_for_dequeue s false s' = some ((default, false), s')) ∧
    (∀ (s s' : SafeQueueVariant Nat) (v : Nat) (r : List Nat), s.terminateFlag = false →
        s'.q = v :: r → wait_for_dequeue s true s' = some ((v, true), { s' with q := r })) :=
  ⟨fun s s' woke h => wait_for_dequeue_stopped s s' woke h,
   fun s s' h => wait_for_dequeue_timeout s s' h,
   fun s s' v r h hq => wait_for_dequeue_woke s s' v r h hq⟩

/-- C3 witness: the amended statement applied to a stopped queue, to a timed-out
wait on a loaded queue, and to a wakeup delivering the head item 7. -/
theorem C3_witness :
    wait_for_dequeue (⟨3, true, [9]⟩ : SafeQueueVariant Nat) false ⟨3, true, [9]⟩ =
      some ((0, false), ⟨3, true, [9]⟩) ∧
    wait_for_dequeue (⟨0, false, [8]⟩ : SafeQueueVariant Nat) false ⟨0, false, [8]⟩ =
      some ((0, false), ⟨0, false, [8]⟩) ∧
    wait_for_dequeue (⟨0, false, []⟩ : SafeQueueVariant Nat) true ⟨0, false, [7, 8]⟩ =
      some ((7, true), ⟨0, false, [8]⟩) :=
  ⟨C3_timed_dequeue_amended.1 ⟨3, true, [9]⟩ ⟨3, true, [9]⟩ false rfl,
   C3_timed_dequeue_amended.2.1 ⟨0, false, [8]⟩ ⟨0, false, [8]⟩ rfl,
   C3_timed_dequeue_amended.2.2 ⟨0, false, []⟩ ⟨0, false, [7, 8]⟩ 7 [8] rfl rfl⟩

/-- C4: the blocking `dequeue` contract.  (1) If already stopped it returns the
sentinel immediately, leaving the state unchanged.  (2) If unstopped with an
item present it returns the head and removes it.  (3) Every successful return
is either the sentinel of an observed stopped state or the head, removed, of an
observed state — nothing else is ever returned.  (4) While every observed state
is empty and unstopped the call stays blocked.  (5) The stop flag is re-checked
at every wakeup: a wakeup observing the flag set returns that state's sentinel
at once. -/
theorem C4_blocking_dequeue_contract :
    (∀ (s : SafeQueueVariant Nat) (wakes : List (SafeQueueVariant Nat)),
        s.terminateFlag = true → dequeue s wakes = some (s.shutdownObject, s)) ∧
    (∀ (s : SafeQueueVariant Nat) (wakes : List (SafeQueueVariant Nat)) (v : Nat) (r : List Nat),
        s.terminateFlag = false → s.q = v :: r → dequeue s wakes = some (v, { s with q := r })) ∧
    (∀ (s : SafeQueueVariant Nat) (wakes : List (SafeQueueVariant Nat)) (v : Nat)
        (s'' : SafeQueueVariant Nat), dequeue s wakes = some (v, s'') →
        (s''.terminateFlag = true ∧ v = s''.shutdownObject) ∨
        (∃ w r, (w = s ∨ w ∈ wakes) ∧ w.q = v :: r ∧ s'' = { w with q := r })) ∧
    (∀ (s : SafeQueueVariant Nat) (wakes : List (SafeQueueVariant Nat)),
        s.terminateFlag = false → s.q = [] →
        (∀ w ∈ wakes, w.terminateFlag = false ∧ w.q = []) → dequeue s wakes = none) ∧
    (∀ (s w : SafeQueueVariant Nat) (ws : List (SafeQueueVariant Nat)),
        s.terminateFlag = false → s.q = [] → w.terminateFlag = true →
        dequeue s (w :: ws) = some (w.shutdownObject, w)) := by
  refine ⟨fun s wakes h => dequeue_stopped s wakes h,
          fun s wakes v r h hq => dequeue_item s wakes v r h hq, ?_, ?_, ?_⟩
  · intro s wakes v s'' h
    by_cases hf : s.terminateFlag = true
    · rw [dequeue_stopped s wakes hf] at h
      simp only [Option.some.injEq, Prod.mk.injEq] at h
      refine Or.inl ⟨by rw [← h.2]; exact hf, by rw [← h.2, ← h.1]⟩
    · rw [dequeue, if_neg hf] at h
      exact dequeueLoop_sound v s'' wakes s h
  · intro s wakes hf hq hall
    rw [dequeue, if_neg (by simp [hf])]
    exact dequeueLoop_blocked wakes s hq hall
  · intro s w ws hf hq hw
    exact dequeue_stop_wake s w ws hf hq hw

/-- C4 witness: the contract applied to a stopped queue, a loaded queue, a
forever-starved queue, and a wakeup caused by `stop`. -/
theorem C4_witness :
    dequeue (⟨9, true, []⟩ : SafeQueueVariant Nat) [] = some (9, ⟨9, true, []⟩) ∧
    dequeue (⟨0, false, [3, 4]⟩ : SafeQueueVariant Nat) [] = some (3, ⟨0, false, [4]⟩) ∧
    dequeue (⟨0, false, []⟩ : SafeQueueVariant Nat) [] = none ∧
    dequeue (⟨0, false, []⟩ : SafeQueueVariant Nat) [⟨0, true, []⟩] = some (0, ⟨0, true, []⟩) :=
  ⟨C4_blocking_dequeue_contract.1 ⟨9, true, []⟩ [] rfl,
   C4_blocking_dequeue_contract.2.1 ⟨0, false, [3, 4]⟩ [] 3 [4] rfl rfl,
   C4_blocking_dequeue_contract.2.2.2.1 ⟨0, false, []⟩ [] rfl rfl (by simp),
   C4_blocking_dequeue_contract.2.2.2.2 ⟨0, false, []⟩ ⟨0, true, []⟩ [] rfl rfl rfl⟩

/-- C5: FIFO order.  Enqueueing any sequence `L` on a fresh queue leaves the
internal sequence equal to `L`, and `L.length` sequential blocking dequeues by
a single consumer return exactly `L` in order; in particular "A","B","C"
enqueued on a fresh queue come back as "A","B","C". -/
theorem C5_fifo_order :
    (∀ (sentinel : String) (L : List String),
        (enqueueList (construct sentinel) L).q = L ∧
        dequeueAll L.length (enqueueList (construct sentinel) L) = L) ∧
    dequeueAll 3 (enqueueList (construct "") ["A", "B", "C"]) = ["A", "B", "C"] := by
  constructor
  · intro sentinel L
    have he : enqueueList (construct sentinel) L = ⟨sentinel, false, L⟩ := by
      rw [enqueueList_eq]
      rfl
    rw [he]
    exact ⟨rfl, dequeueAll_eq L sentinel⟩
  · decide

/-- C6: once the termination flag is true it stays true across every operation
(enqueue, each dequeue variant, clear, wakeWaiters, wait, stop), and `stop` on
an already-stopped queue is the identity on the observable state; moreover
`stop` is idempotent on any state. -/
theorem C6_flag_permanence_and_stop_idempotence :
    (∀ (s : SafeQueueVariant Nat) (t : Nat), s.terminateFlag = true →
        (enqueue s t).terminateFlag = true) ∧
    (∀ (s : SafeQueueVariant Nat) (wakes : List (SafeQueueVariant Nat)) (v : Nat)
        (s'' : SafeQueueVariant Nat), s.terminateFlag = true →
        dequeue s wakes = some (v, s'') → s''.terminateFlag = true) ∧
    (∀ (s s' : SafeQueueVariant Nat) (woke : Bool) (vb : Nat × Bool)
        (s'' : SafeQueueVariant Nat), s.terminateFlag = true →
        wait_for_dequeue s woke s' = some (vb, s'') → s''.terminateFlag = true) ∧
    (∀ s : SafeQueueVariant Nat, s.terminateFlag = true →
        (nonBlockingDequeue s).2.terminateFlag = true ∧ (clear s).terminateFlag = true ∧
        (wakeWaiters s).terminateFlag = true ∧ (wait s).terminateFlag = true ∧
        (stop s).terminateFlag = true) ∧
    (∀ s : SafeQueueVariant Nat, s.terminateFlag = true → stop s = s) ∧
    (∀ s : SafeQueueVariant Nat, stop (stop s) = stop s) := by
  refine ⟨fun s t h => h, ?_, ?_, ?_, ?_, fun s => rfl⟩
  · intro s wakes v s'' h h2
    rw [dequeue_stopped s wakes h] at h2
    simp only [Option.some.injEq, Prod.mk.injEq] at h2
    rw [← h2.2]
    exact h
  · intro s s' woke vb s'' h h2
    rw [wait_for_dequeue_stopped s s' woke h] at h2
    simp only [Option.some.injEq, Prod.mk.injEq] at h2
    rw [← h2.2]
    exact h
  · intro s h
    refine ⟨?_, h, h, h, rfl⟩
    rcases hq : s.q with _ | ⟨x, r⟩ <;> simp [nonBlockingDequeue, hq, h]
  · intro s h
    cases s
    simp_all [stop, wakeWaiters]

/-- C6 witness: permanence and idempotence at a concrete stopped queue. -/
theorem C6_witness :
    (enqueue (⟨1, true, [8]⟩ : SafeQueueVariant Nat) 2).terminateFlag = true ∧
    stop (⟨1, true, [8]⟩ : SafeQueueVariant Nat) = ⟨1, true, [8]⟩ :=
  ⟨C6_flag_permanence_and_stop_idempotence.1 ⟨1, true, [8]⟩ 2 rfl,
   C6_flag_permanence_and_stop_idempotence.2.2.2.2.1 ⟨1, true, [8]⟩ rfl⟩

/-- C7: after enqueueing the items of `L` on a fresh queue with no concurrent
dequeue, `size()` is exactly `L.length`; `stop()` removes nothing (`q` and
`size()` are unchanged); and on a stopped queue the blocking and timed dequeues
return the sentinel resp. `(default, false)` with the state — hence the queued
items — untouched: abandoned in place, never delivered. -/
theorem C7_stop_abandons_items :
    (∀ (sentinel : Nat) (L : List Nat),
        size (enqueueList (construct sentinel) L) = L.length ∧
        (stop (enqueueList (construct sentinel) L)).q = L ∧
        size (stop (enqueueList (construct sentinel) L)) = L.length) ∧
    (∀ (s : SafeQueueVariant Nat) (wakes : List (SafeQueueVariant Nat)),
        s.terminateFlag = true → dequeue s wakes = some (s.shutdownObject, s)) ∧
    (∀ (s s' : SafeQueueVariant Nat) (woke : Bool), s.terminateFlag = true →
        wait_for_dequeue s woke s' = some ((default, false), s)) := by
  refine ⟨?_, fun s wakes h => dequeue_stopped s wakes h,
          fun s s' woke h => wait_for_dequeue_stopped s s' woke h⟩
  intro sentinel L
  have he : enqueueList (construct sentinel) L = ⟨sentinel, false, L⟩ := by
    rw [enqueueList_eq]
    rfl
  rw [he]
  exact ⟨rfl, rfl, rfl⟩

/-- C7 witness: three items enqueued, stop drains nothing, the stopped dequeue
delivers only the sentinel and leaves the state untouched. -/
theorem C7_witness :
    size (enqueueList (construct (0 : Nat)) [10, 20, 30]) = 3 ∧
    dequeue (⟨0, true, [10, 20, 30]⟩ : SafeQueueVariant Nat) [] =
      some (0, ⟨0, true, [10, 20, 30]⟩) :=
  ⟨(C7_stop_abandons_items.1 0 [10, 20, 30]).1,
   C7_stop_abandons_items.2.1 ⟨0, true, [10, 20, 30]⟩ [] rfl⟩

/-- C10: the destructor `~SafeQueueVariant(){ stop(); }` invokes `stop`, so at
destruction the termination flag is set (and all waiters are woken by `stop`'s
`notify_all`), whether or not the owner ever called `stop` explicitly. -/
theorem C10_destructor_invokes_stop :
    ∀ s : SafeQueueVariant Nat,
      destruct s = stop s ∧ (destruct s).terminateFlag = true ∧
      isStopped (destruct s) = true :=
  fun _ => ⟨rfl, rfl, rfl⟩

end SafeQueueVariant

namespace WheeledThreadPool

theorem rrCount_add (N j : Nat) : ∀ (m n c : Nat),
    rrCount N j c (m + n) = rrCount N j c m + rrCount N j (c + m) n := by
  intro m
  induction m with
  | zero => intro n c; simp [rrCount]
  | succ m ih =>
    intro n c
    have h1 : m + 1 + n = (m + n) + 1 := by omega
    rw [h1]
    simp only [rrCount]
    rw [ih n (c + 1)]
    have h2 : c + 1 + m = c + (m + 1) := by omega
    rw [h2, Nat.add_assoc]

theorem rrCount_mod (N j : Nat) : ∀ (m c : Nat), rrCount N j (c % N) m = rrCount N j c m := by
  intro m
  induction m with
  | zero => intro c; rfl
  | succ m ih =>
    intro c
    simp only [rrCount]
    rw [Nat.mod_mod_of_dvd c (dvd_refl N), ← ih (c % N + 1), ← ih (c + 1), Nat.mod_add_mod]

theorem rrCount_zero_upto (N j : Nat) (hj : j < N) :
    ∀ m, m ≤ N → rrCount N j 0 m = if j < m then 1 else 0 := by
  intro m
  induction m with
  | zero => intro _; simp [rrCount]
  | succ m ih =>
    intro hm
    have h1 : rrCount N j 0 (m + 1) = rrCount N j 0 m + rrCount N j m 1 := by
      have h := rrCount_add N j m 1 0
      simpa using h
    rw [h1, ih (by omega)]
    have hmN : m % N = m := Nat.mod_eq_of_lt (by omega)
    simp only [rrCount, hmN]
    split_ifs <;> omega

theorem rrCount_block (N j c : Nat) (hj : j < N) : rrCount N j c N = 1 := by
  have hN : 0 < N := lt_of_le_of_lt (Nat.zero_le j) hj
  rw [← rrCount_mod N j N c]
  have hlt : c % N < N := Nat.mod_lt c hN
  have hba : N - c % N + c % N = N := Nat.sub_add_cancel (le_of_lt hlt)
  have hab : c % N + (N - c % N) = N := by omega
  have h1 := rrCount_add N j (N - c % N) (c % N) (c % N)
  rw [hba, hab] at h1
  have h3 : rrCount N j 0 (c % N) = rrCount N j N (c % N) := by
    have h := rrCount_mod N j (c % N) N
    rwa [Nat.mod_self] at h
  have h4 := rrCount_add N j (c % N) (N - c % N) 0
  rw [Nat.zero_add, hab] at h4
  have h5 : rrCount N j 0 N = 1 := by
    rw [rrCount_zero_upto N j hj N (le_refl N)]
    simp [hj]
  rw [h1, ← h3, Nat.add_comm, ← h4, h5]

theorem rrCount_multiple (N j : Nat) (hj : j < N) : ∀ k, rrCount N j 0 (N * k) = k := by
  intro k
  induction k with
  | zero => simp [rrCount]
  | succ k ih =>
    have h1 : N * (k + 1) = N * k + N := by ring
    rw [h1, rrCount_add N j (N * k) N 0]
    simp only [Nat.zero_add]
    rw [ih, rrCount_block N j (N * k) hj]

theorem run_spokes {τ : Type} {N : Nat} (w : Wheel τ N) (t : τ) (j : Nat) :
    (run w t).spokes j = if j = w.cursor % N then w.spokes j ++ [t] else w.spokes j :=
  rfl

theorem run_cursor {τ : Type} {N : Nat} (w : Wheel τ N) (t : τ) :
    (run w t).cursor = (w.cursor + 1) % N :=
  rfl

theorem runAll_spoke_length {τ : Type} {N : Nat} (j : Nat) :
    ∀ (L : List τ) (w : Wheel τ N),
      ((runAll w L).spokes j).length = (w.spokes j).length + rrCount N j w.cursor L.length := by
  intro L
  induction L with
  | nil => intro w; simp [runAll, rrCount]
  | cons t ts ih =>
    intro w
    have h0 : runAll w (t :: ts) = runAll (run w t) ts := rfl
    rw [h0, ih (run w t), run_cursor, run_spokes, rrCount_mod N j ts.length (w.cursor + 1)]
    simp only [List.length_cons, rrCount]
    by_cases hj : j = w.cursor % N <;> simp [hj, List.length_append] <;> omega

theorem runAll_execCount {τ : Type} {N : Nat} [DecidableEq τ] (hN : 0 < N) (t : τ) :
    ∀ (L : List τ) (w : Wheel τ N),
      execCount (runAll w L) t = execCount w t + L.count t := by
  intro L
  induction L with
  | nil => intro w; simp [runAll]
  | cons a ts ih =>
    intro w
    have h0 : runAll w (a :: ts) = runAll (run w a) ts := rfl
    have h1 : execCount (run w a) t = execCount w t + (if a = t then 1 else 0) := by
      unfold execCount
      have hsum : ∀ j ∈ Finset.range N,
          ((run w a).spokes j).count t
            = (w.spokes j).count t + (if j = w.cursor % N then (if a = t then 1 else 0) else 0) := by
        intro j _
        rw [run_spokes]
        by_cases hj : j = w.cursor % N
        · simp [hj, List.count_append, List.count_singleton']
        · simp [hj]
      rw [Finset.sum_congr rfl hsum, Finset.sum_add_distrib,
          Finset.sum_ite_eq' (Finset.range N) (w.cursor % N)]
      simp [Nat.mod_lt w.cursor hN]
    rw [h0, ih (run w a), h1, List.count_cons]
    by_cases ha : a = t <;> simp [ha] <;> omega

/-- C8: round-robin fairness.  From a fresh pool of `N` spokes, submitting the
tasks of `L` sequentially from one thread places exactly `k = M / N` tasks on
every spoke `j < N` when `M = L.length = N * k`, and every submitted task is
placed — hence executed by that spoke's single bound worker — exactly as many
times as it occurs in `L` (total across all spokes); concretely, with `N = 2`
spokes and the tasks 1,2,3,4 submitted sequentially, spoke 0 receives [1, 3]
and spoke 1 receives [2, 4], in order. -/
theorem C8_round_robin_fairness :
    (∀ (N k j : Nat) (L : List Nat), j < N → L.length = N * k →
        ((runAll (Wheel.fresh Nat N) L).spokes j).length = k) ∧
    (∀ (N : Nat) (L : List Nat) (t : Nat), 0 < N →
        execCount (runAll (Wheel.fresh Nat N) L) t = L.count t) ∧
    ((runAll (Wheel.fresh Nat 2) [1, 2, 3, 4]).spokes 0 = [1, 3] ∧
     (runAll (Wheel.fresh Nat 2) [1, 2, 3, 4]).spokes 1 = [2, 4]) := by
  refine ⟨?_, ?_, by decide, by decide⟩
  · intro N k j L hj hL
    rw [runAll_spoke_length]
    simp [Wheel.fresh]
    rw [hL]
    exact rrCount_multiple N j hj k
  · intro N L t hN
    rw [runAll_execCount hN t L (Wheel.fresh Nat N)]
    simp [execCount, Wheel.fresh]

/-- C8 witness: the fairness statement applied with `N = 2`, `M = 4` (two tasks
per spoke) and with a task submitted twice among three to a 3-spoke pool. -/
theorem C8_witness :
    ((runAll (Wheel.fresh Nat 2) [1, 2, 3, 4]).spokes 0).length = 2 ∧
    execCount (runAll (Wheel.fresh Nat 3) [5, 6, 5]) 5 = 2 :=
  ⟨C8_round_robin_fairness.1 2 2 0 [1, 2, 3, 4] (by decide) (by decide),
   C8_round_robin_fairness.2.1 3 [5, 6, 5] 5 (by decide)⟩

/-- C9: startup happens exactly once.  Any number `T ≥ 1` of `startup` callers,
serialized by the startup lock, spawn exactly `n` worker threads in total (not
`n * T`), and leave the pool observed started; a `startup` call on an
already-started pool changes nothing. -/
theorem C9_startup_exactly_once :
    (∀ (n T : Nat), 1 ≤ T →
        (startupMany n T Lifecycle.fresh).spawned = n ∧
        (startupMany n T Lifecycle.fresh).isStarted = true) ∧
    (∀ (n : Nat) (p : Lifecycle), p.isStarted = true → startup n p = p) := by
  constructor
  · intro n T hT
    have aux : ∀ S, 1 ≤ S → startupMany n S Lifecycle.fresh = ⟨true, n⟩ := by
      intro S hS
      induction S with
      | zero => omega
      | succ S ih =>
        rcases Nat.eq_zero_or_pos S with h0 | hpos
        · subst h0
          simp [startupMany, startup, Lifecycle.fresh]
        · simp only [startupMany]
          rw [ih hpos]
          simp [startup]
    rw [aux T hT]
    exact ⟨rfl, rfl⟩
  · intro n p h
    simp [startup, h]

/-- C9 witness: three serialized callers on a 4-thread pool spawn exactly 4
workers, and a redundant call is a no-op. -/
theorem C9_witness :
    (startupMany 4 3 Lifecycle.fresh).spawned = 4 ∧
    startup 4 ⟨true, 4⟩ = ⟨true, 4⟩ :=
  ⟨(C9_startup_exactly_once.1 4 3 (by decide)).1,
   C9_startup_exactly_once.2 4 ⟨true, 4⟩ rfl⟩

end WheeledThreadPool

end BSignals.details
